import Mathlib

/-!
Shallow embedding of the generation workflow of the Workstation view
(optimistic store, reconciliation merge, poll scheduler, submission
resolution, request validation, restore engine), translated from the
TypeScript source.  Timestamps (`created_at`) are modelled as `Nat`
(the value of `new Date(s).getTime()`), the `status` string enum as an
inductive type, and JavaScript `Map` insertion-order semantics by an
explicit association list.
-/

namespace AGM

/-- Status enum of a generation record: the `status` field of the
`Generation` interface is optional with values pending or completed or failed. -/
inductive GStatus
  | pending
  | completed
  | failed
deriving DecidableEq

/-- Generation modes selectable in the Workstation view. -/
inductive GenMode
  | manual
  | automatic
  | storyboard_enhancer
  | angles
  | background_grid
deriving DecidableEq

/-- A generation record, from the `Generation` interface.  `status` is
optional in the source (`status?:`), hence `Option GStatus`; `created_at`
is the numeric timestamp of the record. -/
structure Generation where
  id : String
  shot_id : String
  image_url : String
  prompt : String
  model : String
  resolution : String
  aspect_ratio : String
  status : Option GStatus
  created_at : Nat
deriving DecidableEq

/-- `g.status === 'pending'` from the source. -/
def isPending (g : Generation) : Bool :=
  g.status == some GStatus.pending

/-- `new Set(data.map(g => g.id))` — the server record id set, kept as a
list; membership is what the source queries. -/
def serverIds (data : List Generation) : List String :=
  data.map (fun g => g.id)

/-- `prev.filter(g => g.status === 'pending' && !serverIds.has(g.id))`. -/
def missingPending (prev data : List Generation) : List Generation :=
  prev.filter (fun g => isPending g && !((serverIds data).contains g.id))

/-- One `uniqueMap.set(g.id, g)` step of a JavaScript `Map`: if the key is
present the value is updated in place, otherwise the pair is appended
(insertion order is preserved, last value wins). -/
def mapSet (m : List (String × Generation)) (g : Generation) :
    List (String × Generation) :=
  if m.any (fun p => p.1 == g.id) then
    m.map (fun p => if p.1 == g.id then (p.1, g) else p)
  else
    m ++ [(g.id, g)]

/-- `merged.forEach(g => uniqueMap.set(g.id, g))` starting from an empty map. -/
def uniqueMapOf (l : List Generation) : List (String × Generation) :=
  l.foldl mapSet []

/-- `Array.from(uniqueMap.values())`: deduplication by id, last occurrence
winning, keys in first-insertion order. -/
def dedupById (l : List Generation) : List Generation :=
  (uniqueMapOf l).map (fun p => p.2)

/-- Order used by `.sort((a, b) => b.created_at - a.created_at)`:
descending by `created_at`. -/
def createdDesc (a b : Generation) : Prop :=
  b.created_at ≤ a.created_at

instance : DecidableRel createdDesc :=
  fun a b => Nat.decLe b.created_at a.created_at

instance : IsTotal Generation createdDesc :=
  ⟨fun a b => Nat.le_total b.created_at a.created_at⟩

instance : IsTrans Generation createdDesc :=
  ⟨fun _ _ _ h h' => Nat.le_trans h' h⟩

/-- `merged.sort((a, b) => ...)`: sort descending by `created_at`. -/
def sortByCreatedDesc (l : List Generation) : List Generation :=
  l.insertionSort createdDesc

/-- The reconciliation merge applied inside `setGenerations` by
`loadGenerations`: keep local pending records missing from the server list;
if none are missing the server list becomes the state verbatim; otherwise
dedup `missingPending ++ data` by id and sort descending by `created_at`. -/
def mergeResult (prev data : List Generation) : List Generation :=
  if 0 < (missingPending prev data).length then
    sortByCreatedDesc (dedupById (missingPending prev data ++ data))
  else
    data

/-- One invocation of `loadGenerations`: a fetch result (success with a
server list, or a thrown error) is turned into the new store plus the
`hasPending` flag returned to the poll scheduler.  On a fetch error the
store is untouched and `false` is returned. -/
def loadGenerationsStep (prev : List Generation)
    (fetched : Except String (List Generation)) : List Generation × Bool :=
  match fetched with
  | Except.ok data => (mergeResult prev data, data.any isPending)
  | Except.error _ => (prev, false)

/-- The `setInterval` period of `startPolling`, in milliseconds. -/
def POLL_INTERVAL_MS : Nat := 3000

/-- Number of interval ticks that actually fire, given the sequence of
fetch results the successive ticks would observe: each tick runs
`loadGenerations`; when it reports no pending the timer is cleared and no
further tick fires.  An exhausted list means the poller was still running. -/
def pollTicks : List Generation → List (Except String (List Generation)) → Nat
  | _, [] => 0
  | st, f :: rest =>
    let r := loadGenerationsStep st f
    if r.2 then 1 + pollTicks r.1 rest else 1

/-- Resolution value of `generateImage`: `{success, generation_id?}`. -/
structure SubmitResult where
  success : Bool
  generation_id : Option String
deriving DecidableEq

/-- Shape of a rejected submission: `error.response?.data?.detail` and
`error.message`, each possibly absent. -/
structure SubmitError where
  detail : Option String
  message : Option String
deriving DecidableEq

/-- JavaScript `a || b` on an optional string: an absent or empty string
is falsy. -/
def jsOrString (a : Option String) (b : String) : String :=
  match a with
  | some s => if s == "" then b else s
  | none => b

/-- `error.response?.data?.detail || error.message || 'Unknown error'`. -/
def errMsgOf (e : SubmitError) : String :=
  jsOrString e.detail (jsOrString e.message "Unknown error")

/-- Observable outcome of a settled submission promise: the new store, and
whether a reload was triggered, polling was started, and an alert shown. -/
structure ResolveOutcome where
  store : List Generation
  reloadTriggered : Bool
  pollingStarted : Bool
  alertShown : Option String
deriving DecidableEq

/-- `[realItem, ...prev.filter(g => g.id !== tempId)]` where `realItem`
is the temp record with the server-issued id and status still pending. -/
def upgradeTemp (tempGen : Generation) (genId : String)
    (prev : List Generation) : List Generation :=
  { tempGen with id := genId, status := some GStatus.pending } ::
    prev.filter (fun g => g.id != tempGen.id)

/-- The `.then` handler of the submission call: on `success` with a known
shot, replace the temp record by the real one when a `generation_id` is
present, then reload and start polling; otherwise nothing happens. -/
def onSubmitResolved (tempGen : Generation) (result : SubmitResult)
    (shotKnown : Bool) (prev : List Generation) : ResolveOutcome :=
  if result.success && shotKnown then
    match result.generation_id with
    | some gid => ⟨upgradeTemp tempGen gid prev, true, true, none⟩
    | none => ⟨prev, true, true, none⟩
  else
    ⟨prev, false, false, none⟩

/-- The `.catch` handler of the submission call: drop the optimistic temp
record and alert with the extracted error message. -/
def onSubmitRejected (tempGen : Generation) (err : SubmitError)
    (prev : List Generation) : ResolveOutcome :=
  ⟨prev.filter (fun g => g.id != tempGen.id), false, false,
    some ("Failed to start generation: " ++ errMsgOf err)⟩

/-- Outcome of entering `handleGenerate` up to (and including) the point a
network call would be issued: resulting store, any alert raised before
submission, and whether a network call is made at all. -/
structure GenAttemptOutcome where
  store : List Generation
  alert : Option String
  networkCalled : Bool
deriving DecidableEq

/-- The validation prefix of `handleGenerate`: manual mode with an empty
prompt returns silently; background-grid mode without a base image alerts
and returns; every other path proceeds (non-grid modes insert the
optimistic record before calling the API, the grid mode calls the grid API
with no optimistic record). -/
def handleGenerateEntry (mode : GenMode) (prompt : String)
    (backgroundGridFile : Option String) (tempGen : Generation)
    (store : List Generation) : GenAttemptOutcome :=
  if mode == GenMode.manual && prompt == "" then
    ⟨store, none, false⟩
  else if mode == GenMode.background_grid then
    match backgroundGridFile with
    | none => ⟨store, some "Please upload a base background image.", false⟩
    | some _ => ⟨store, none, true⟩
  else
    ⟨tempGen :: store, none, true⟩

/-- A `{name, url, type}` entry of `ref_data.manual_refs`. -/
structure ManualRef where
  name : String
  url : String
  type : String
deriving DecidableEq

/-- A `File` materialized by the restore path from a fetched blob. -/
structure RestoredFile where
  name : String
  type : String
  content : String
deriving DecidableEq

/-- A resolved HTTP response as the browser fetch API delivers it: the
`ok` status flag and the body.  A browser `fetch` promise resolves even on
an HTTP error status such as 404 — `ok` is then `false` and the body is
the error payload; the promise rejects only on network-level failures. -/
structure FetchResponse where
  ok : Bool
  body : String
deriving DecidableEq

/-- The `fetchFile` helper of `handleRestore`: `await fetch(url)`, take
the response body as a blob and build a file with the given name and type.
The response's `ok` status is never inspected, so a resolved HTTP error
response still yields a file, built from the error body; only a rejected
fetch is caught (and logged), yielding `none`.  The network is modelled by
an oracle from url to a resolved response or a rejection. -/
def fetchFile (net : String → Except String FetchResponse)
    (url name ty : String) : Option RestoredFile :=
  match net url with
  | Except.ok r => some ⟨name, ty, r.body⟩
  | Except.error _ => none

/-- The manual-mode branch of `handleRestore`: fetch each reference in
order, pushing only non-null fetch results onto the file list. -/
def restoreManualRefs (net : String → Except String FetchResponse)
    (refs : List ManualRef) : List RestoredFile :=
  refs.foldl
    (fun files r =>
      match fetchFile net r.url r.name r.type with
      | some f => files ++ [f]
      | none => files)
    []

/-- Sortedness check: descending by `created_at` (newest first). -/
def isSortedByCreatedDesc : List Generation → Bool
  | [] => true
  | [_] => true
  | a :: b :: rest =>
    decide (b.created_at ≤ a.created_at) && isSortedByCreatedDesc (b :: rest)

/-- Concrete record builder used by witnesses and counterexamples. -/
def mkGen (i : String) (t : Nat) (st : Option GStatus) : Generation :=
  ⟨i, "shot-1", "", "a prompt", "gemini-3-pro-image-preview", "1K", "16:9", st, t⟩

/-- Concrete network for the 404 restore scenario: one reference url
resolves with an ok response, the other resolves with an HTTP 404 error
response — the fetch promise does not reject on an HTTP error status. -/
def net404 : String → Except String FetchResponse :=
  fun u =>
    if u == "srv/a.png" then Except.ok ⟨true, "BLOB_A"⟩
    else Except.ok ⟨false, "Not Found"⟩

/-- Concrete network for the rejection restore scenario: one reference url
resolves with an ok response, the other's fetch rejects at the network
level (the only case the source's try/catch actually intercepts). -/
def netReject : String → Except String FetchResponse :=
  fun u =>
    if u == "srv/a.png" then Except.ok ⟨true, "BLOB_A"⟩
    else Except.error "NetworkError"

/-- Key-value coherence: every pair held by the map after a `set` has its
key equal to the stored record's id, provided the map already did. -/
theorem mapSet_inv {m : List (String × Generation)} {g : Generation}
    (h : ∀ p ∈ m, p.1 = p.2.id) : ∀ p ∈ mapSet m g, p.1 = p.2.id := by
  intro p hp
  by_cases hc : m.any (fun q => q.1 == g.id) = true
  · rw [mapSet, if_pos hc] at hp
    rcases List.mem_map.mp hp with ⟨q, hq, hpq⟩
    by_cases hid : (q.1 == g.id) = true
    · rw [if_pos hid] at hpq
      rw [← hpq]
      exact eq_of_beq hid
    · rw [if_neg hid] at hpq
      rw [← hpq]
      exact h q hq
  · rw [mapSet, if_neg hc] at hp
    rcases List.mem_append.mp hp with hp | hp
    · exact h p hp
    · rw [List.mem_singleton.mp hp]

/-- The keys of the map after a `set`: unchanged when the key was present,
the new key appended otherwise. -/
theorem mapSet_keys {m : List (String × Generation)} {g : Generation} :
    (mapSet m g).map Prod.fst =
      if m.any (fun q => q.1 == g.id) = true then m.map Prod.fst
      else m.map Prod.fst ++ [g.id] := by
  by_cases hc : m.any (fun q => q.1 == g.id) = true
  · rw [mapSet, if_pos hc, if_pos hc, List.map_map]
    refine List.map_congr_left ?_
    intro q _
    show (if (q.1 == g.id) = true then (q.1, g) else q).1 = q.1
    by_cases hid : (q.1 == g.id) = true
    · rw [if_pos hid]
    · rw [if_neg hid]
  · rw [mapSet, if_neg hc, if_neg hc, List.map_append]
    rfl

/-- A `set` preserves distinctness of the keys. -/
theorem mapSet_keys_nodup {m : List (String × Generation)} {g : Generation}
    (h : (m.map Prod.fst).Nodup) : ((mapSet m g).map Prod.fst).Nodup := by
  rw [mapSet_keys]
  by_cases hc : m.any (fun q => q.1 == g.id) = true
  · rw [if_pos hc]; exact h
  · rw [if_neg hc]
    rw [List.nodup_append]
    refine ⟨h, List.nodup_singleton _, ?_⟩
    intro a ha ha'
    rw [List.mem_singleton.mp ha'] at ha
    rcases List.mem_map.mp ha with ⟨q, hq, hq'⟩
    exact hc (List.any_eq_true.mpr ⟨q, hq, beq_iff_eq.mpr hq'⟩)

/-- Key-value coherence holds for any fold of `set` steps. -/
theorem foldl_mapSet_inv (l : List Generation) :
    ∀ m : List (String × Generation), (∀ p ∈ m, p.1 = p.2.id) →
      ∀ p ∈ l.foldl mapSet m, p.1 = p.2.id := by
  induction l with
  | nil => intro m hm; simpa using hm
  | cons x l ih =>
    intro m hm
    rw [List.foldl_cons]
    exact ih (mapSet m x) (mapSet_inv hm)

/-- Keys stay distinct along any fold of `set` steps. -/
theorem foldl_mapSet_keys_nodup (l : List Generation) :
    ∀ m : List (String × Generation), (m.map Prod.fst).Nodup →
      ((l.foldl mapSet m).map Prod.fst).Nodup := by
  induction l with
  | nil => intro m hm; simpa using hm
  | cons x l ih =>
    intro m hm
    rw [List.foldl_cons]
    exact ih (mapSet m x) (mapSet_keys_nodup hm)

theorem uniqueMapOf_inv (l : List Generation) :
    ∀ p ∈ uniqueMapOf l, p.1 = p.2.id :=
  foldl_mapSet_inv l [] (by simp)

theorem uniqueMapOf_keys_nodup (l : List Generation) :
    ((uniqueMapOf l).map Prod.fst).Nodup :=
  foldl_mapSet_keys_nodup l [] (by simp)

/-- The ids of the deduplicated list are the keys of the map. -/
theorem dedupById_ids (l : List Generation) :
    (dedupById l).map (fun g => g.id) = (uniqueMapOf l).map Prod.fst := by
  rw [dedupById, List.map_map]
  exact List.map_congr_left fun p hp => (uniqueMapOf_inv l p hp).symm

/-- Deduplication by id always yields pairwise-distinct ids. -/
theorem dedupById_ids_nodup (l : List Generation) :
    ((dedupById l).map (fun g => g.id)).Nodup := by
  rw [dedupById_ids]
  exact uniqueMapOf_keys_nodup l

/-- Folding `set` over records whose ids are fresh for the map and
pairwise distinct just appends the corresponding pairs. -/
theorem foldl_mapSet_fresh (l : List Generation) :
    ∀ m : List (String × Generation), ((l.map fun g => g.id).Nodup) →
      (∀ g ∈ l, ¬ g.id ∈ m.map Prod.fst) →
      l.foldl mapSet m = m ++ (l.map fun g => (g.id, g)) := by
  induction l with
  | nil => intro m _ _; simp
  | cons x l ih =>
    intro m hnd hfr
    have hx : ¬ m.any (fun q => q.1 == x.id) = true := by
      intro hany
      rcases List.any_eq_true.mp hany with ⟨q, hq, hbeq⟩
      exact hfr x (List.mem_cons_self x l)
        (List.mem_map.mpr ⟨q, hq, eq_of_beq hbeq⟩)
    have hnd' : ((l.map fun g => g.id).Nodup) ∧ ¬ x.id ∈ (l.map fun g => g.id) := by
      have h0 := List.nodup_cons.mp (show (x.id :: l.map fun g => g.id).Nodup from hnd)
      exact ⟨h0.2, h0.1⟩
    have hfr' : ∀ g ∈ l, ¬ g.id ∈ (m ++ [(x.id, x)]).map Prod.fst := by
      intro g hg hmem
      rw [List.map_append, List.mem_append] at hmem
      rcases hmem with hmem | hmem
      · exact hfr g (List.mem_cons_of_mem x hg) hmem
      · have hgx : g.id = x.id := List.mem_singleton.mp (by simpa using hmem)
        exact hnd'.2 (hgx ▸ List.mem_map.mpr ⟨g, hg, rfl⟩)
    rw [List.foldl_cons, mapSet, if_neg hx, ih (m ++ [(x.id, x)]) hnd'.1 hfr']
    simp

/-- On a list with pairwise-distinct ids, deduplication changes nothing. -/
theorem dedupById_of_nodup {l : List Generation}
    (h : ((l.map fun g => g.id).Nodup)) : dedupById l = l := by
  rw [dedupById, uniqueMapOf, foldl_mapSet_fresh l [] h (by simp)]
  rw [List.nil_append, List.map_map]
  calc List.map ((fun p => p.2) ∘ fun g => (g.id, g)) l
      = List.map id l := List.map_congr_left fun a _ => rfl
    _ = l := List.map_id l

/-- A `set` of a record makes that record one of the map's values. -/
theorem mem_values_mapSet_self (m : List (String × Generation)) (g : Generation) :
    g ∈ (mapSet m g).map (fun p => p.2) := by
  by_cases hc : m.any (fun q => q.1 == g.id) = true
  · rw [mapSet, if_pos hc, List.map_map]
    rcases List.any_eq_true.mp hc with ⟨q, hq, hbeq⟩
    refine List.mem_map.mpr ⟨q, hq, ?_⟩
    show (if (q.1 == g.id) = true then (q.1, g) else q).2 = g
    rw [if_pos hbeq]
  · rw [mapSet, if_neg hc]
    simp

/-- A `set` under a different key keeps an existing value in the map. -/
theorem mem_values_mapSet_of_ne {m : List (String × Generation)} {g y : Generation}
    (hinv : ∀ p ∈ m, p.1 = p.2.id)
    (hg : g ∈ m.map (fun p => p.2)) (hne : y.id ≠ g.id) :
    g ∈ (mapSet m y).map (fun p => p.2) := by
  rcases List.mem_map.mp hg with ⟨p, hp, hpg⟩
  by_cases hc : m.any (fun q => q.1 == y.id) = true
  · rw [mapSet, if_pos hc, List.map_map]
    refine List.mem_map.mpr ⟨p, hp, ?_⟩
    show (if (p.1 == y.id) = true then (p.1, y) else p).2 = g
    have hkey : (p.1 == y.id) = false := by
      refine beq_eq_false_iff_ne.mpr ?_
      rw [hinv p hp, hpg]
      exact fun hcontra => hne hcontra.symm
    rw [if_neg (by rw [hkey]; exact Bool.false_ne_true), hpg]
  · rw [mapSet, if_neg hc, List.map_append]
    exact List.mem_append_left _ (List.mem_map.mpr ⟨p, hp, hpg⟩)

/-- Main membership lemma for the fold of `set` steps: a record of the
input list survives into the values as long as it is the unique record of
the input carrying its id. -/
theorem mem_values_foldl_mapSet {g : Generation} (l : List Generation) :
    ∀ m : List (String × Generation), (∀ p ∈ m, p.1 = p.2.id) →
      (g ∈ l ∨ g ∈ m.map (fun p => p.2)) →
      (∀ g' ∈ l, g'.id = g.id → g' = g) →
      g ∈ (l.foldl mapSet m).map (fun p => p.2) := by
  induction l with
  | nil =>
    intro m _ hg _
    rcases hg with hg | hg
    · exact absurd hg (List.not_mem_nil g)
    · simpa using hg
  | cons x l ih =>
    intro m hinv hg huniq
    rw [List.foldl_cons]
    by_cases hgl : g ∈ l
    · exact ih (mapSet m x) (mapSet_inv hinv) (Or.inl hgl)
        (fun g' hg' => huniq g' (List.mem_cons_of_mem x hg'))
    · by_cases hgx : g = x
      · subst hgx
        exact ih (mapSet m g) (mapSet_inv hinv)
          (Or.inr (mem_values_mapSet_self m g))
          (fun g' hg' => huniq g' (List.mem_cons_of_mem _ hg'))
      · have hgm : g ∈ m.map (fun p => p.2) := by
          rcases hg with hg | hg
          · rcases List.mem_cons.mp hg with h' | h'
            · exact absurd h' hgx
            · exact absurd h' hgl
          · exact hg
        have hxne : x.id ≠ g.id := fun h' =>
          hgx (huniq x (List.mem_cons_self x l) h').symm
        exact ih (mapSet m x) (mapSet_inv hinv)
          (Or.inr (mem_values_mapSet_of_ne hinv hgm hxne))
          (fun g' hg' => huniq g' (List.mem_cons_of_mem _ hg'))

/-- A record that is the unique carrier of its id in `l` survives
deduplication. -/
theorem mem_dedupById {l : List Generation} {g : Generation} (hg : g ∈ l)
    (huniq : ∀ g' ∈ l, g'.id = g.id → g' = g) : g ∈ dedupById l :=
  mem_values_foldl_mapSet l [] (by simp) (Or.inl hg) huniq

/-- Characterisation of membership in `missingPending`. -/
theorem mem_missingPending {prev data : List Generation} {g : Generation} :
    g ∈ missingPending prev data ↔
      g ∈ prev ∧ isPending g = true ∧ ¬ g.id ∈ serverIds data := by
  rw [missingPending, List.mem_filter]
  simp [and_assoc]

/-- The ids of the missing-pending records are distinct whenever the ids of
the local state are. -/
theorem missingPending_ids_nodup {prev data : List Generation}
    (hprev : ((prev.map fun g => g.id).Nodup)) :
    (((missingPending prev data).map fun g => g.id).Nodup) :=
  ((List.filter_sublist prev).map fun g => g.id).nodup hprev

/-- Empty-missing branch of the merge: the server list is the new state
verbatim. -/
theorem mergeResult_of_missing_nil {prev data : List Generation}
    (h : missingPending prev data = []) : mergeResult prev data = data := by
  rw [mergeResult, if_neg]
  rw [h]
  simp

/-- Nonempty-missing branch of the merge: the result is a permutation of
the by-id deduplication of `missingPending ++ data`. -/
theorem mergeResult_perm_dedup {prev data : List Generation}
    (h : missingPending prev data ≠ []) :
    (mergeResult prev data).Perm (dedupById (missingPending prev data ++ data)) := by
  rw [mergeResult, if_pos (List.length_pos.mpr h)]
  exact List.perm_insertionSort createdDesc _

/-- A sorted list passes the executable descending-order check. -/
theorem isSorted_of_sorted :
    ∀ {l : List Generation}, List.Sorted createdDesc l →
      isSortedByCreatedDesc l = true
  | [], _ => rfl
  | [_], _ => rfl
  | a :: b :: rest, h => by
    have h1 := List.pairwise_cons.mp h
    have hb : createdDesc a b := h1.1 b (List.mem_cons_self b rest)
    have hr := isSorted_of_sorted h1.2
    have hb' : b.created_at ≤ a.created_at := hb
    show (decide (b.created_at ≤ a.created_at) && isSortedByCreatedDesc (b :: rest)) = true
    rw [decide_eq_true hb', hr]
    rfl

/-- The sort of the merge is sorted descending by `created_at`. -/
theorem isSorted_sortByCreatedDesc (l : List Generation) :
    isSortedByCreatedDesc (sortByCreatedDesc l) = true :=
  isSorted_of_sorted (List.sorted_insertionSort createdDesc l)

/-- One merge yields pairwise-distinct ids provided the fetched server
list has pairwise-distinct ids. -/
theorem mergeResult_ids_nodup {prev data : List Generation}
    (hdata : ((data.map fun g => g.id).Nodup)) :
    (((mergeResult prev data).map fun g => g.id).Nodup) := by
  rw [mergeResult]
  by_cases h : 0 < (missingPending prev data).length
  · rw [if_pos h]
    have hperm :
        ((sortByCreatedDesc (dedupById (missingPending prev data ++ data))).map
            fun g => g.id).Perm
          ((dedupById (missingPending prev data ++ data)).map fun g => g.id) :=
      (List.perm_insertionSort createdDesc _).map fun g => g.id
    exact hperm.symm.nodup (dedupById_ids_nodup _)
  · rw [if_neg h]
    exact hdata

/-- The fold of `handleRestore`'s manual branch is the filterMap of the
per-reference fetches: each rejected fetch drops exactly that reference. -/
theorem restoreManualRefs_eq_filterMap
    (net : String → Except String FetchResponse) (refs : List ManualRef) :
    restoreManualRefs net refs
      = refs.filterMap fun r => fetchFile net r.url r.name r.type := by
  rw [restoreManualRefs]
  suffices hgen : ∀ (rs : List ManualRef) (acc : List RestoredFile),
      rs.foldl
        (fun files r =>
          match fetchFile net r.url r.name r.type with
          | some f => files ++ [f]
          | none => files)
        acc
      = acc ++ rs.filterMap fun r => fetchFile net r.url r.name r.type by
    rw [hgen refs []]
    simp
  intro rs
  induction rs with
  | nil => intro acc; simp
  | cons r rs ih =>
    intro acc
    rw [List.foldl_cons, List.filterMap_cons]
    rcases hf : fetchFile net r.url r.name r.type with _ | f
    · simpa using ih acc
    · simpa using ih (acc ++ [f])

/-- Local state of the C1 witness: a pending temp record plus an already
confirmed record. -/
def prevW : List Generation :=
  [mkGen "temp-1" 5 (some GStatus.pending), mkGen "srv-1" 3 (some GStatus.completed)]

/-- Server list of the C1 witness: the confirmed record again plus a new
pending server record; the temp record is not yet visible. -/
def dataW : List Generation :=
  [mkGen "srv-1" 3 (some GStatus.completed), mkGen "srv-2" 9 (some GStatus.pending)]

/-- C1: the reconciliation merge keeps every local record that is pending
and absent from the server id set; with no such record the server list
becomes the state verbatim; otherwise the result is (a permutation of) the
by-id deduplication of the missing pending records followed by the server
records, the later — server — occurrence winning on an id collision.  The
local state is the optimistic store, keyed by id, so its ids are pairwise
distinct. -/
theorem C1_reconciliation_merge (prev data : List Generation)
    (hprev : ((prev.map fun g => g.id).Nodup)) :
    (∀ g ∈ missingPending prev data, g ∈ mergeResult prev data)
    ∧ (missingPending prev data = [] → mergeResult prev data = data)
    ∧ (missingPending prev data ≠ [] →
        (mergeResult prev data).Perm
          (dedupById (missingPending prev data ++ data))) := by
  refine ⟨?_, fun h => mergeResult_of_missing_nil h,
    fun h => mergeResult_perm_dedup h⟩
  intro g hg
  have hne : missingPending prev data ≠ [] := by
    intro h0
    rw [h0] at hg
    exact absurd hg (List.not_mem_nil g)
  rw [(mergeResult_perm_dedup hne).mem_iff]
  have hprops := mem_missingPending.mp hg
  refine mem_dedupById (List.mem_append_left data hg) ?_
  intro g' hg' hid
  rcases List.mem_append.mp hg' with h' | h'
  · exact List.inj_on_of_nodup_map (missingPending_ids_nodup hprev) h' hg hid
  · exact absurd (hid ▸ List.mem_map.mpr ⟨g', h', rfl⟩) hprops.2.2

/-- Witness for C1 at a concrete store and server list. -/
theorem C1_witness :
    ((prevW.map fun g => g.id).Nodup)
    ∧ ((∀ g ∈ missingPending prevW dataW, g ∈ mergeResult prevW dataW)
      ∧ (missingPending prevW dataW = [] → mergeResult prevW dataW = dataW)
      ∧ (missingPending prevW dataW ≠ [] →
          (mergeResult prevW dataW).Perm
            (dedupById (missingPending prevW dataW ++ dataW)))) :=
  ⟨by decide, C1_reconciliation_merge prevW dataW (by decide)⟩

/-- C2 fails as stated: when no pending record is missing, the server
list is adopted verbatim, here in ascending `created_at` order. -/
theorem C2_counterexample :
    isSortedByCreatedDesc
      (mergeResult []
        [mkGen "srv-b" 1 (some GStatus.completed),
         mkGen "srv-a" 2 (some GStatus.completed)]) = false := by
  decide

/-- C2 amended: the merge result is sorted descending by `created_at`
whenever at least one local pending record is missing from the server
list; when none is missing the result is the fetched server list verbatim,
in whatever order the server returned it. -/
theorem C2_sorted_when_missing_pending (prev data : List Generation) :
    (missingPending prev data ≠ [] →
      isSortedByCreatedDesc (mergeResult prev data) = true)
    ∧ (missingPending prev data = [] → mergeResult prev data = data) := by
  refine ⟨?_, fun h => mergeResult_of_missing_nil h⟩
  intro h
  rw [mergeResult, if_pos (List.length_pos.mpr h)]
  exact isSorted_sortByCreatedDesc _

/-- Witness for C2's amended statement: one merge with a missing pending
record (result sorted), one without (server list adopted verbatim). -/
theorem C2_witness :
    (missingPending prevW dataW ≠ []
      ∧ isSortedByCreatedDesc (mergeResult prevW dataW) = true)
    ∧ (missingPending [] dataW = [] ∧ mergeResult [] dataW = dataW) :=
  ⟨⟨by decide, (C2_sorted_when_missing_pending prevW dataW).1 (by decide)⟩,
    ⟨by decide, (C2_sorted_when_missing_pending [] dataW).2 (by decide)⟩⟩

/-- C3 fails as stated over arbitrary server lists: a server list that
itself carries an id twice is adopted verbatim when no pending record is
missing, so the store then holds two records with the same id. -/
theorem C3_counterexample :
    ¬ ((mergeResult []
          [mkGen "srv-a" 1 (some GStatus.completed),
           mkGen "srv-a" 2 (some GStatus.completed)]).map fun g => g.id).Nodup := by
  decide

/-- C3 amended: over any sequence of merges whose fetched server lists
each have pairwise-distinct ids, starting from a store with
pairwise-distinct ids, the store never holds two records sharing an id. -/
theorem C3_no_duplicate_ids (prev : List Generation)
    (fetches : List (List Generation))
    (hprev : ((prev.map fun g => g.id).Nodup))
    (hf : ∀ d ∈ fetches, ((d.map fun g => g.id).Nodup)) :
    (((fetches.foldl mergeResult prev).map fun g => g.id).Nodup) := by
  induction fetches generalizing prev with
  | nil => simpa using hprev
  | cons d fetches ih =>
    rw [List.foldl_cons]
    exact ih (mergeResult prev d)
      (mergeResult_ids_nodup (hf d (List.mem_cons_self d fetches)))
      (fun d' hd' => hf d' (List.mem_cons_of_mem d hd'))

/-- Witness for C3's amended statement: two successive merges. -/
theorem C3_witness :
    ((prevW.map fun g => g.id).Nodup)
    ∧ (∀ d ∈ [dataW, [mkGen "srv-2" 9 (some GStatus.completed)]],
        ((d.map fun g => g.id).Nodup))
    ∧ ((([dataW, [mkGen "srv-2" 9 (some GStatus.completed)]].foldl
          mergeResult prevW).map fun g => g.id).Nodup) :=
  ⟨by decide, by decide,
    C3_no_duplicate_ids prevW [dataW, [mkGen "srv-2" 9 (some GStatus.completed)]]
      (by decide) (by decide)⟩

/-- C4 fails as stated: the stop signal is computed from the freshly
fetched server list, not from the current (merged) record set.  With a
pending temp record in the store and an empty server fetch, the merged
store still holds the pending record, yet the cycle reports no-pending and
the poller stops. -/
theorem C4_counterexample :
    (loadGenerationsStep [mkGen "temp-1" 5 (some GStatus.pending)]
        (Except.ok [])).2 = false
    ∧ mkGen "temp-1" 5 (some GStatus.pending) ∈
        (loadGenerationsStep [mkGen "temp-1" 5 (some GStatus.pending)]
          (Except.ok [])).1
    ∧ isPending (mkGen "temp-1" 5 (some GStatus.pending)) = true := by
  decide

/-- C4 amended: the poll loop stops exactly when no record of the freshly
fetched server list is pending (not of the merged current set); for a
server fetch sequence returning pending, pending, completed the poller
fires exactly 3 ticks — a 4th tick never fires, whatever fetches were
still planned — and the tick interval constant is 3000 ms. -/
theorem C4_poll_termination (st : List Generation)
    (rest : List (Except String (List Generation))) :
    (∀ (s : List Generation) (data : List Generation),
      (loadGenerationsStep s (Except.ok data)).2 = data.any isPending)
    ∧ pollTicks st
        (Except.ok [mkGen "srv-1" 1 (some GStatus.pending)]
          :: Except.ok [mkGen "srv-1" 1 (some GStatus.pending)]
          :: Except.ok [mkGen "srv-1" 1 (some GStatus.completed)]
          :: rest) = 3
    ∧ POLL_INTERVAL_MS = 3000 := by
  refine ⟨fun s data => rfl, ?_, rfl⟩
  simp [pollTicks, loadGenerationsStep, isPending, mkGen]

/-- C5: once the submission resolves with a server-issued generation id,
the store holds no record under the temp id any more and holds the temp
record itself under the server id, still pending; the server id is issued
by the backend, hence distinct from the client-synthesized temp id. -/
theorem C5_temp_id_upgrade (tempGen : Generation) (gid : String)
    (prev : List Generation) (h : gid ≠ tempGen.id) :
    (∀ g ∈ (onSubmitResolved tempGen ⟨true, some gid⟩ true prev).store,
      g.id ≠ tempGen.id)
    ∧ ({ tempGen with id := gid, status := some GStatus.pending } : Generation)
        ∈ (onSubmitResolved tempGen ⟨true, some gid⟩ true prev).store := by
  have hstore : (onSubmitResolved tempGen ⟨true, some gid⟩ true prev).store
      = ({ tempGen with id := gid, status := some GStatus.pending } : Generation)
          :: prev.filter (fun g => g.id != tempGen.id) := rfl
  constructor
  · intro g hg
    rw [hstore] at hg
    rcases List.mem_cons.mp hg with h' | h'
    · rw [h']
      exact h
    · exact bne_iff_ne.mp (List.mem_filter.mp h').2
  · rw [hstore]
    exact List.mem_cons_self _ _

/-- Witness for C5 at a concrete temp record, server id and store. -/
theorem C5_witness :
    ("srv-9" ≠ (mkGen "temp-1" 5 (some GStatus.pending)).id)
    ∧ ((∀ g ∈ (onSubmitResolved (mkGen "temp-1" 5 (some GStatus.pending))
            ⟨true, some "srv-9"⟩ true
            [mkGen "temp-1" 5 (some GStatus.pending),
             mkGen "old-1" 1 (some GStatus.completed)]).store,
        g.id ≠ (mkGen "temp-1" 5 (some GStatus.pending)).id)
      ∧ ({ mkGen "temp-1" 5 (some GStatus.pending) with
            id := "srv-9", status := some GStatus.pending } : Generation)
          ∈ (onSubmitResolved (mkGen "temp-1" 5 (some GStatus.pending))
              ⟨true, some "srv-9"⟩ true
              [mkGen "temp-1" 5 (some GStatus.pending),
               mkGen "old-1" 1 (some GStatus.completed)]).store) :=
  ⟨by decide,
    C5_temp_id_upgrade (mkGen "temp-1" 5 (some GStatus.pending)) "srv-9"
      [mkGen "temp-1" 5 (some GStatus.pending),
       mkGen "old-1" 1 (some GStatus.completed)] (by decide)⟩

/-- C6 fails as stated: with a rejection payload carrying
detail quota exceeded, the surfaced alert text is the detail prefixed by
the fixed failure text, not exactly the detail. -/
theorem C6_counterexample :
    (onSubmitRejected (mkGen "temp-7" 7 (some GStatus.pending))
        ⟨some "quota exceeded", some "Request failed with status code 403"⟩
        (mkGen "temp-7" 7 (some GStatus.pending)
          :: [mkGen "old-1" 1 (some GStatus.completed)])).alertShown
      ≠ some "quota exceeded" := by
  decide

/-- C6 amended: on a rejected submission the store reverts to exactly its
pre-submission contents (the optimistic temp record, whose fresh temp id
occurs nowhere in the prior store, is removed), and the surfaced alert is
the fixed prefix "Failed to start generation: " followed by the extracted
message — the payload's detail field when present and nonempty, else the
error's message when present and nonempty, else "Unknown error". -/
theorem C6_rollback_and_message (tempGen : Generation) (pre : List Generation)
    (e : SubmitError) (hfresh : ∀ g ∈ pre, g.id ≠ tempGen.id) :
    (onSubmitRejected tempGen e (tempGen :: pre)).store = pre
    ∧ (onSubmitRejected tempGen e (tempGen :: pre)).alertShown
        = some ("Failed to start generation: " ++ errMsgOf e)
    ∧ (∀ d, e.detail = some d → d ≠ "" → errMsgOf e = d) := by
  refine ⟨?_, rfl, ?_⟩
  · show (tempGen :: pre).filter (fun g => g.id != tempGen.id) = pre
    rw [List.filter_cons]
    have hself : ((tempGen.id != tempGen.id) = true) = False := by simp
    rw [if_neg (by rw [hself]; exact id)]
    exact List.filter_eq_self.mpr fun g hg => bne_iff_ne.mpr (hfresh g hg)
  · intro d hd hne
    rw [errMsgOf, hd, jsOrString, if_neg]
    rw [beq_iff_eq]
    exact hne

/-- Witness for C6's amended statement at the spec's quota scenario. -/
theorem C6_witness :
    (∀ g ∈ [mkGen "old-1" 1 (some GStatus.completed)],
      g.id ≠ (mkGen "temp-7" 7 (some GStatus.pending)).id)
    ∧ ((onSubmitRejected (mkGen "temp-7" 7 (some GStatus.pending))
          ⟨some "quota exceeded", some "Request failed with status code 403"⟩
          (mkGen "temp-7" 7 (some GStatus.pending)
            :: [mkGen "old-1" 1 (some GStatus.completed)])).store
        = [mkGen "old-1" 1 (some GStatus.completed)]
      ∧ (onSubmitRejected (mkGen "temp-7" 7 (some GStatus.pending))
            ⟨some "quota exceeded", some "Request failed with status code 403"⟩
            (mkGen "temp-7" 7 (some GStatus.pending)
              :: [mkGen "old-1" 1 (some GStatus.completed)])).alertShown
          = some ("Failed to start generation: "
              ++ errMsgOf ⟨some "quota exceeded",
                    some "Request failed with status code 403"⟩)
      ∧ (∀ d,
          (⟨some "quota exceeded",
              some "Request failed with status code 403"⟩ : SubmitError).detail
            = some d → d ≠ "" →
          errMsgOf ⟨some "quota exceeded",
              some "Request failed with status code 403"⟩ = d)) :=
  ⟨by decide,
    C6_rollback_and_message (mkGen "temp-7" 7 (some GStatus.pending))
      [mkGen "old-1" 1 (some GStatus.completed)]
      ⟨some "quota exceeded", some "Request failed with status code 403"⟩
      (by decide)⟩

/-- C7 fails as stated: the manual-mode empty-prompt validation failure
blocks submission and mutates nothing, but surfaces no user-visible
message — the handler just returns. -/
theorem C7_counterexample :
    (handleGenerateEntry GenMode.manual "" none
        (mkGen "temp-3" 3 (some GStatus.pending)) []).networkCalled = false
    ∧ (handleGenerateEntry GenMode.manual "" none
        (mkGen "temp-3" 3 (some GStatus.pending)) []).store = []
    ∧ (handleGenerateEntry GenMode.manual "" none
        (mkGen "temp-3" 3 (some GStatus.pending)) []).alert = none := by
  decide

/-- C7 amended: both validation failures are rejected before any network
call with no state mutation; the background-grid failure raises a
user-visible alert, while the manual empty-prompt failure is silent. -/
theorem C7_validation (bg : Option String) (p : String)
    (tempGen : Generation) (store : List Generation) :
    handleGenerateEntry GenMode.manual "" bg tempGen store
      = ⟨store, none, false⟩
    ∧ handleGenerateEntry GenMode.background_grid p none tempGen store
      = ⟨store, some "Please upload a base background image.", false⟩ := by
  constructor
  · rfl
  · rfl

/-- C8: a failed server fetch leaves the store untouched and reports
no-pending (false) to the scheduler, so the very tick that observed the
failure is the last one — the poller stops instead of busy-looping,
whatever fetches were still planned. -/
theorem C8_fetch_failure (prev : List Generation) (e : String)
    (rest : List (Except String (List Generation))) :
    loadGenerationsStep prev (Except.error e) = (prev, false)
    ∧ pollTicks prev (Except.error e :: rest) = 1 := by
  refine ⟨rfl, ?_⟩
  simp [pollTicks, loadGenerationsStep]

/-- C9 fails as stated: a browser fetch resolves on an HTTP 404 and
`fetchFile` never checks the response's `ok` status, so the 404'd
reference is materialized into a file from the error body and kept — in
the claim's two-reference scenario the restored list has two entries, not
exactly one. -/
theorem C9_counterexample :
    restoreManualRefs net404
        [⟨"a.png", "srv/a.png", "image/png"⟩,
         ⟨"b.png", "srv/gone.png", "image/png"⟩]
      = [⟨"a.png", "image/png", "BLOB_A"⟩,
         ⟨"b.png", "image/png", "Not Found"⟩]
    ∧ ¬ (restoreManualRefs net404
        [⟨"a.png", "srv/a.png", "image/png"⟩,
         ⟨"b.png", "srv/gone.png", "image/png"⟩]).length = 1 := by
  decide

/-- C9 amended: the restore never aborts — the restored list is exactly
the filterMap of the per-reference fetches, so a rejected (network-level)
fetch is caught and drops only that reference; for two references where
one url's fetch rejects, the restored list has exactly the one
successfully fetched entry, while a reference whose url 404s resolves
without rejection and is kept, its file built from the error body. -/
theorem C9_restore_partial_failure :
    (∀ (net : String → Except String FetchResponse) (refs : List ManualRef),
      restoreManualRefs net refs
        = refs.filterMap fun r => fetchFile net r.url r.name r.type)
    ∧ restoreManualRefs netReject
        [⟨"a.png", "srv/a.png", "image/png"⟩,
         ⟨"b.png", "srv/gone.png", "image/png"⟩]
      = [⟨"a.png", "image/png", "BLOB_A"⟩]
    ∧ (restoreManualRefs netReject
        [⟨"a.png", "srv/a.png", "image/png"⟩,
         ⟨"b.png", "srv/gone.png", "image/png"⟩]).length = 1
    ∧ fetchFile net404 "srv/gone.png" "b.png" "image/png"
      = some ⟨"b.png", "image/png", "Not Found"⟩ := by
  refine ⟨fun net refs => restoreManualRefs_eq_filterMap net refs, ?_, ?_, ?_⟩
  · decide
  · decide
  · decide

/-- C10: when the submission promise resolves with success false, neither
the id upgrade nor the rollback runs — the store is unchanged (so the
optimistic temp record is still there, pending), no reload is triggered,
no polling starts, and no message is surfaced. -/
theorem C10_success_false_noop (tempGen : Generation) (res : SubmitResult)
    (shotKnown : Bool) (prev : List Generation) (h : res.success = false) :
    onSubmitResolved tempGen res shotKnown prev
      = ⟨prev, false, false, none⟩
    ∧ (tempGen ∈ prev →
        tempGen ∈ (onSubmitResolved tempGen res shotKnown prev).store) := by
  have hres : onSubmitResolved tempGen res shotKnown prev
      = ⟨prev, false, false, none⟩ := by
    rw [onSubmitResolved, h]
    rfl
  exact ⟨hres, fun hm => by rw [hres]; exact hm⟩

/-- Witness for C10: a concrete resolution with success false leaves the
concrete store (holding the pending temp record) untouched. -/
theorem C10_witness :
    (SubmitResult.mk false (some "srv-9")).success = false
    ∧ (onSubmitResolved (mkGen "temp-1" 5 (some GStatus.pending))
          ⟨false, some "srv-9"⟩ true
          [mkGen "temp-1" 5 (some GStatus.pending)]
        = ⟨[mkGen "temp-1" 5 (some GStatus.pending)], false, false, none⟩
      ∧ (mkGen "temp-1" 5 (some GStatus.pending)
            ∈ [mkGen "temp-1" 5 (some GStatus.pending)] →
          mkGen "temp-1" 5 (some GStatus.pending)
            ∈ (onSubmitResolved (mkGen "temp-1" 5 (some GStatus.pending))
                ⟨false, some "srv-9"⟩ true
                [mkGen "temp-1" 5 (some GStatus.pending)]).store)) :=
  ⟨rfl, C10_success_false_noop (mkGen "temp-1" 5 (some GStatus.pending))
    ⟨false, some "srv-9"⟩ true [mkGen "temp-1" 5 (some GStatus.pending)] rfl⟩

end AGM
